import Mathlib

set_option linter.unusedVariables false

/-!
Shallow embedding of the opencode-orchestrator task orchestration engine.

The definitions below are translated from the TypeScript sources:
`src/github/client.ts`, `src/github/labels.ts`, `src/tasks/quality.ts`,
`src/tasks/manager.ts`, `src/tasks/worktree.ts` (WorktreeManager,
OpenCodeManager) and the orchestrator entry point (`checkNewTasks`,
`checkBlockedTasks`).  External effects (GitHub API, git subprocesses,
the OpenCode server) are modelled as explicit environment parameters;
timestamps are natural numbers of milliseconds.
-/

/-! ## GitHub data model (`src/github/client.ts`) -/

/-- A GitHub issue comment as fetched by `getIssueComments`. -/
structure Comment where
  id : Nat
  body : String
  author : String
  createdAt : Nat
  deriving Repr, DecidableEq

/-- A GitHub issue as fetched by `getIssuesWithLabel`.  The `author` field is
read by `isUserAllowed` in `labels.ts` but is never populated by
`getIssuesWithLabel`, so it is an `Option` (`none` models `undefined`). -/
structure Issue where
  number : Nat
  title : String
  body : String
  labels : List String
  comments : List Comment
  createdAt : Nat
  updatedAt : Nat
  author : Option String
  deriving Repr, DecidableEq

/-- Priority buckets (`type Priority` in `client.ts`). -/
inductive Priority where
  | high
  | medium
  | low
  | noPriority
  deriving Repr, DecidableEq

/-- `GitHubClient.getPriority`: first matching priority label wins. -/
def getPriority (issue : Issue) : Priority :=
  if issue.labels.contains "ai-priority:high" then .high
  else if issue.labels.contains "ai-priority:medium" then .medium
  else if issue.labels.contains "ai-priority:low" then .low
  else .noPriority

/-- The `priorityOrder` record in `GitHubClient.sortByPriority`. -/
def priorityOrder : Priority → Nat
  | .high => 0
  | .medium => 1
  | .low => 2
  | .noPriority => 3

/-- Numeric priority of an issue, as compared by the sort callback. -/
def prioNum (issue : Issue) : Nat := priorityOrder (getPriority issue)

/-- Stable insertion modelling one step of the (stable) JavaScript
`Array.prototype.sort` with comparator `priorityA - priorityB`: the new
element is placed before the first element of strictly larger priority
number, hence after every earlier element of equal priority. -/
def insertByPriority (x : Issue) : List Issue → List Issue
  | [] => [x]
  | y :: ys =>
    if prioNum x < prioNum y then x :: y :: ys
    else y :: insertByPriority x ys

/-- Helper for `sortByPriority`: fold the input left-to-right into a sorted
accumulator, preserving the original order of equal-priority elements. -/
def sortByPriorityAux : List Issue → List Issue → List Issue
  | [], acc => acc
  | x :: xs, acc => sortByPriorityAux xs (insertByPriority x acc)

/-- `GitHubClient.sortByPriority`: stable sort by priority bucket. -/
def sortByPriority (issues : List Issue) : List Issue :=
  sortByPriorityAux issues []

/-- `GitHubClient.hasNewComments`: some comment is newer than `since` and not
authored by the orchestrator's configured username. -/
def hasNewComments (username : String) (issue : Issue) (since : Nat) : Bool :=
  issue.comments.any (fun c => since < c.createdAt && c.author ≠ username)

/-- `GitHubClient.getLatestHumanComment`: last comment whose author differs
from the configured username, if any. -/
def getLatestHumanComment (username : String) (issue : Issue) : Option Comment :=
  let humanComments := issue.comments.filter (fun c => c.author ≠ username)
  humanComments.getLast?

/-- `GitHubClient.removeLabel`.  The underlying Octokit call is modelled by
the environment `api`, returning either success or an HTTP error status;
a 404 (label not present) is swallowed, every other error is rethrown. -/
def removeLabel (api : Nat → String → Except Nat Unit) (issueNumber : Nat)
    (label : String) : Except Nat Unit :=
  match api issueNumber label with
  | .ok _ => .ok ()
  | .error status => if status = 404 then .ok () else .error status

/-! ## Label predicates (`src/github/labels.ts`) -/

/-- `isReadyForPickup`: carries `ai-task` and lacks `ai-in-progress`. -/
def isReadyForPickup (issue : Issue) : Bool :=
  issue.labels.contains "ai-task" && !(issue.labels.contains "ai-in-progress")

/-- `isBlocked`: carries `ai-blocked`. -/
def isBlocked (issue : Issue) : Bool :=
  issue.labels.contains "ai-blocked"

/-- `isUserAllowed`: empty allow-list admits everyone; otherwise the issue
author must be allow-listed or the issue must carry `ai-approved`.  An
absent author (`none`) never matches the allow-list, as in JavaScript
`allowedUsers.includes(undefined)`. -/
def isUserAllowed (issue : Issue) (allowedUsers : List String) : Bool :=
  if allowedUsers.isEmpty then true
  else if (issue.author.map allowedUsers.contains).getD false then true
  else if issue.labels.contains "ai-approved" then true
  else false

/-! ## Discovery scan (`GitHubTaskOrchestrator.checkNewTasks`) -/

/-- Eligibility test applied inside the admission loop. -/
def eligibleForStart (allowedUsers : List String) (issue : Issue) : Bool :=
  isReadyForPickup issue && isUserAllowed issue allowedUsers

/-- The `for (const issue of sorted)` admission loop of `checkNewTasks`:
break at the first refusal of `canStartNewTask()` (active count at the
cap), skip ineligible issues, and on a thrown `startTask` (modelled by
`startOk issue = false`) log and continue without occupying a slot.
Returns the list of issues actually started, in order. -/
def admitLoop (maxC : Nat) (allowedUsers : List String) (startOk : Issue → Bool) :
    List Issue → Nat → List Issue
  | [], _ => []
  | issue :: rest, active =>
    if maxC ≤ active then []
    else if eligibleForStart allowedUsers issue then
      if startOk issue then
        issue :: admitLoop maxC allowedUsers startOk rest (active + 1)
      else admitLoop maxC allowedUsers startOk rest active
    else admitLoop maxC allowedUsers startOk rest active

/-- `GitHubTaskOrchestrator.checkNewTasks`: early return when already at the
cap, otherwise sort the fetched issues by priority and admit them one at a
time.  Returns the issues for which a task was started, in start order. -/
def checkNewTasks (maxC : Nat) (allowedUsers : List String) (startOk : Issue → Bool)
    (issues : List Issue) (active : Nat) : List Issue :=
  if maxC ≤ active then []
  else admitLoop maxC allowedUsers startOk (sortByPriority issues) active

/-- Priority-bucket order with creation-time tie-break. -/
def prioCreatedLE (a b : Issue) : Prop :=
  prioNum a < prioNum b ∨ (prioNum a = prioNum b ∧ a.createdAt ≤ b.createdAt)

/-- Concrete issues for the §8 scenario: three ready items with priorities
high, none, medium, created in that order. -/
def issueHigh : Issue :=
  { number := 1, title := "a", body := "", labels := ["ai-task", "ai-priority:high"],
    comments := [], createdAt := 10, updatedAt := 10, author := none }

def issueNone : Issue :=
  { number := 2, title := "b", body := "", labels := ["ai-task"],
    comments := [], createdAt := 20, updatedAt := 20, author := none }

def issueMedium : Issue :=
  { number := 3, title := "c", body := "", labels := ["ai-task", "ai-priority:medium"],
    comments := [], createdAt := 30, updatedAt := 30, author := none }

/-! ## Quality gates (`src/tasks/quality.ts`) -/

/-- `QualityGate`: a named verification command with a required flag. -/
structure QualityGate where
  name : String
  commands : List String
  required : Bool
  deriving Repr, DecidableEq

/-- `QualityResult`: outcome of one executed gate. -/
structure QualityResult where
  gate : String
  passed : Bool
  output : String
  error : Option String
  deriving Repr, DecidableEq

/-- Which entries the `scripts` section of a `package.json` defines. -/
structure PackageScripts where
  lint : Bool
  typeCheck : Bool
  build : Bool
  test : Bool
  format : Bool
  deriving Repr, DecidableEq

/-- Which of the probed targets a `Makefile` contains (`lint:`, `test:`,
`build:` substrings). -/
structure MakeTargets where
  lint : Bool
  test : Bool
  build : Bool
  deriving Repr, DecidableEq

/-- Result of the filesystem probes `detectGates` performs on one directory
path: presence of `package.json` (with its scripts), an ESLint config, a
`tsconfig.json`, a `Makefile` (with its targets), `pyproject.toml`,
`setup.py` and `Cargo.toml`. -/
structure DirProbe where
  packageJson : Option PackageScripts
  eslintConfig : Bool
  tsconfig : Bool
  makefile : Option MakeTargets
  pyproject : Bool
  setupPy : Bool
  cargoToml : Bool
  deriving Repr, DecidableEq

/-- A directory with none of the probed manifests. -/
def emptyDir : DirProbe :=
  { packageJson := none, eslintConfig := false, tsconfig := false,
    makefile := none, pyproject := false, setupPy := false, cargoToml := false }

/-- `QualityGateRunner.detectGates`, over a filesystem modelled as a map from
the probed directory path to its probe results.  The branch structure and
push order follow the source, including the duplicate-name guards for the
Makefile and Python cases (and their absence for the Rust case). -/
def detectGates (fs : String → DirProbe) (worktreePath : String) : List QualityGate :=
  let d := fs worktreePath
  let gates : List QualityGate := []
  let gates := match d.packageJson with
    | some scripts =>
      let gates :=
        if scripts.lint then
          gates ++ [⟨"Linting", ["npm", "run", "lint"], true⟩]
        else if d.eslintConfig then
          gates ++ [⟨"Linting", ["npx", "eslint", "."], true⟩]
        else gates
      let gates :=
        if scripts.typeCheck then
          gates ++ [⟨"Type Checking", ["npm", "run", "type-check"], true⟩]
        else if d.tsconfig then
          gates ++ [⟨"Type Checking", ["npx", "tsc", "--noEmit"], true⟩]
        else gates
      let gates :=
        if scripts.build then gates ++ [⟨"Build", ["npm", "run", "build"], true⟩]
        else gates
      let gates :=
        if scripts.test then gates ++ [⟨"Tests", ["npm", "test"], true⟩]
        else gates
      if scripts.format then gates ++ [⟨"Formatting", ["npm", "run", "format"], false⟩]
      else gates
    | none => gates
  let gates := match d.makefile with
    | some m =>
      let gates :=
        if m.lint && !(gates.any (fun g => g.name == "Linting")) then
          gates ++ [⟨"Linting", ["make", "lint"], true⟩]
        else gates
      let gates :=
        if m.test && !(gates.any (fun g => g.name == "Tests")) then
          gates ++ [⟨"Tests", ["make", "test"], true⟩]
        else gates
      if m.build && !(gates.any (fun g => g.name == "Build")) then
        gates ++ [⟨"Build", ["make", "build"], true⟩]
      else gates
    | none => gates
  let gates :=
    if (d.pyproject || d.setupPy) && !(gates.any (fun g => g.name == "Tests")) then
      gates ++ [⟨"Tests", ["pytest"], true⟩]
    else gates
  if d.cargoToml then
    gates ++ [⟨"Linting", ["cargo", "clippy"], true⟩,
              ⟨"Build", ["cargo", "build"], true⟩,
              ⟨"Tests", ["cargo", "test"], true⟩]
  else gates

/-- `QualityGateRunner.runGate`: the `execSync` call is modelled by the
environment `exec`, returning either captured stdout (success) or the pair
of partial stdout and the error message (failure, i.e. the catch branch). -/
def runGate (exec : List String → Except (String × String) String)
    (gate : QualityGate) : QualityResult :=
  match exec gate.commands with
  | .ok output => { gate := gate.name, passed := true, output := output, error := none }
  | .error (stdout, errorOutput) =>
      { gate := gate.name, passed := false, output := stdout, error := some errorOutput }

/-- The `for (const gate of gates)` loop body of `runAllGates`: push each
result and break after the first failed required gate. -/
def runGatesLoop (exec : List String → Except (String × String) String) :
    List QualityGate → List QualityResult
  | [] => []
  | gate :: rest =>
    let result := runGate exec gate
    result :: (if !result.passed && gate.required then [] else runGatesLoop exec rest)

/-- `QualityGateRunner.runAllGates`: detect the gates for the workspace and
run them sequentially with the early stop. -/
def runAllGates (fs : String → DirProbe)
    (exec : List String → Except (String × String) String)
    (worktreePath : String) : List QualityResult :=
  runGatesLoop exec (detectGates fs worktreePath)

/-- `QualityGateRunner.allRequiredPassed`: note the source recomputes the
gate definitions with `this.detectGates('')`, i.e. for the empty path, not
for the workspace the results came from. -/
def allRequiredPassed (fs : String → DirProbe) (results : List QualityResult) : Bool :=
  let gates := detectGates fs ""
  let requiredGates := (gates.filter (fun g => g.required)).map (fun g => g.name)
  requiredGates.all (fun gateName =>
    match results.find? (fun r => r.gate == gateName) with
    | some r => r.passed
    | none => false)

/-- Stop index of the gate pipeline: one past the first failing required
gate, or the whole list when no required gate fails. -/
def gateStopCount (exec : List String → Except (String × String) String) :
    List QualityGate → Nat
  | [] => 0
  | gate :: rest =>
    if !(runGate exec gate).passed && gate.required then 1
    else gateStopCount exec rest + 1

/-- Filesystem for the C8 counterexample: the workspace `/ws` has a
`package.json` with a `test` script (so its detected gate list has a
required `Tests` gate), while the empty path has no manifests at all. -/
def fsC8 : String → DirProbe := fun p =>
  if p == "/ws" then
    { packageJson := some { lint := false, typeCheck := false, build := false,
                            test := true, format := false },
      eslintConfig := false, tsconfig := false, makefile := none,
      pyproject := false, setupPy := false, cargoToml := false }
  else emptyDir

/-- A Rust workspace for the C7 witness: `Cargo.toml` present, so the
detected gates are clippy, build and test, all required. -/
def fsC7 : String → DirProbe := fun p =>
  if p == "/rust" then { emptyDir with cargoToml := true } else emptyDir

/-- Gate executor for the C7 witness: `cargo build` fails, everything else
succeeds. -/
def execC7 : List String → Except (String × String) String := fun cmds =>
  if cmds == ["cargo", "build"] then .error ("", "build failed") else .ok "ok"

/-! ## Session supervisor (`OpenCodeManager` in `src/tasks/worktree.ts`) -/

/-- JavaScript `a || b` on optional strings: an absent or empty string falls
through to the right operand. -/
def strOr (a b : Option String) : Option String :=
  match a with
  | some s => if s.isEmpty then b else some s
  | none => b

/-- A message part as read by `handleEvent` (`part.type`, `part.text`). -/
structure EvPart where
  ptype : String
  text : Option String := none
  deriving Repr, DecidableEq

/-- The `properties` object of an OpenCode event, with the fields
`handleEvent` reads from it. -/
structure EvProps where
  sessionID : Option String := none
  state : Option String := none
  status : Option String := none
  error : Option String := none
  part : Option EvPart := none
  shareLink : Option String := none
  url : Option String := none
  title : Option String := none
  message : Option String := none
  text : Option String := none
  body : Option String := none
  variant : Option String := none
  deriving Repr, DecidableEq

/-- An event from the OpenCode SSE stream (`OpenCodeEvent`).  Error payloads
are opaque; a present payload is modelled as `some _` (present objects are
truthy in JavaScript). -/
structure OCEvent where
  type : String
  sessionID : Option String := none
  state : Option String := none
  status : Option String := none
  error : Option String := none
  part : Option EvPart := none
  shareLink : Option String := none
  url : Option String := none
  title : Option String := none
  message : Option String := none
  text : Option String := none
  body : Option String := none
  variant : Option String := none
  properties : Option EvProps := none
  deriving Repr, DecidableEq

/-- The normalized TUI popup stored on the task (`lastTuiPopup`). -/
structure TuiPopup where
  title : String
  message : String
  variant : Option String
  deriving Repr, DecidableEq

/-- `OpenCodeTaskStatus`: the supervision state of one active task.  The
`EventSource` handle and the status-poll timer are modelled by the flags
`eventSourceOpen` and `statusCheckActive`; `errorHandled` starts out
`undefined`, i.e. `false`. -/
structure OCTask where
  sessionId : String
  issueNumber : Nat
  startedAt : Nat
  shareLink : Option String := none
  lastActivity : Nat
  currentMessageBuffer : Option String := none
  lastTuiPopup : Option TuiPopup := none
  eventSourceOpen : Bool := true
  statusCheckActive : Bool := true
  errorHandled : Bool := false
  deriving Repr, DecidableEq

/-- An invocation of `handleSessionError`: either with the (possibly absent)
error payload taken from the event, or with the synthesized
`ImmediateFailure` error. -/
inductive RecoveryCall where
  | viaError (error : Option String)
  | viaImmediate (durationMs : Nat)
  deriving Repr, DecidableEq

/-- Observable side effects of one `handleEvent` call. -/
structure HEffects where
  recovery : Option RecoveryCall := none
  completedCallback : Bool := false
  removedFromTasks : Bool := false
  immediateFailureLogged : Bool := false
  quickIdleWarned : Bool := false
  sessionEndedFailed : Option Bool := none
  deriving Repr, DecidableEq

def noEffects : HEffects := {}

/-- Characters stripped by `normalizeMessage` in the TUI branch. -/
def isBulletOrSpace (c : Char) : Bool :=
  c = '·' || c = '•' || c = '▪' || c = '▫' || c.isWhitespace

/-- The `normalizeMessage` helper of the TUI branch: strip leading/trailing
bullet and whitespace characters, then trim. -/
def normalizeMessage (text : String) : String :=
  let chars := text.toList
  let chars := chars.dropWhile isBulletOrSpace
  let chars := (chars.reverse.dropWhile isBulletOrSpace).reverse
  (String.mk chars).trim

/-- `event.properties?.part || event.part`. -/
def eventPart (event : OCEvent) : Option EvPart :=
  (event.properties.bind (fun p => p.part)) <|> event.part

/-- `event.sessionID || event.properties?.sessionID` (idle branch). -/
def idleSessionId (event : OCEvent) : Option String :=
  strOr event.sessionID (event.properties.bind (fun p => p.sessionID))

/-- `statusData.state || statusData.status` where
`statusData = event.properties || event`. -/
def statusState (event : OCEvent) : Option String :=
  match event.properties with
  | some p => strOr p.state p.status
  | none => strOr event.state event.status

/-- `statusData.error || event.error`. -/
def statusError (event : OCEvent) : Option String :=
  match event.properties with
  | some p => p.error <|> event.error
  | none => event.error

/-- `popupData.title || popupData.message || ''`. -/
def popupTitle (event : OCEvent) : String :=
  match event.properties with
  | some p => (strOr p.title p.message).getD ""
  | none => (strOr event.title event.message).getD ""

/-- `popupData.message || popupData.text || popupData.body || ''`. -/
def popupMessage (event : OCEvent) : String :=
  match event.properties with
  | some p => (strOr p.message (strOr p.text p.body)).getD ""
  | none => (strOr event.message (strOr event.text event.body)).getD ""

/-- `popupData.variant`. -/
def popupVariant (event : OCEvent) : Option String :=
  match event.properties with
  | some p => p.variant
  | none => event.variant

/-- `event.shareLink || event.url || event.properties?.shareLink ||
event.properties?.url`. -/
def eventShareLink (event : OCEvent) : Option String :=
  strOr event.shareLink
    (strOr event.url
      (strOr (event.properties.bind (fun p => p.shareLink))
             (event.properties.bind (fun p => p.url))))

/-- `link.includes('opncd.ai')`: substring containment on character lists. -/
def containsSub (needle : List Char) : List Char → Bool
  | [] => needle.isEmpty
  | c :: rest => needle.isPrefixOf (c :: rest) || containsSub needle rest

/-- The `message.part.updated` / `message.chunk` branch of `handleEvent`:
append a chunk delta to the streamed-text buffer, replace the buffer on a
snapshot part (emitting only the new suffix to stdout), flush the buffer on
`step_finish`; tool parts are logging-only. -/
def handlePartEvent (eventType : String) (task : OCTask) (event : OCEvent) :
    OCTask × HEffects :=
  match eventPart event with
  | some part =>
    if part.ptype == "text" && !((part.text.getD "").isEmpty) then
      let txt := part.text.getD ""
      if eventType == "message.chunk" then
        ({ task with
            currentMessageBuffer := some ((task.currentMessageBuffer.getD "") ++ txt) },
         noEffects)
      else
        ({ task with currentMessageBuffer := some txt }, noEffects)
    else if part.ptype == "tool_use" || part.ptype == "tool_call" then
      (task, noEffects)
    else if part.ptype == "step_finish" then
      ({ task with currentMessageBuffer := none }, noEffects)
    else (task, noEffects)
  | none => (task, noEffects)

/-- The `tui.*` branch of `handleEvent`: remember the last normalized popup
so that animation-only changes are not re-printed. -/
def handleTuiEvent (task : OCTask) (event : OCEvent) : OCTask × HEffects :=
  let normalizedTitle := normalizeMessage (popupTitle event)
  let normalizedMessage := normalizeMessage (popupMessage event)
  let hasChanged :=
    match task.lastTuiPopup with
    | none => true
    | some lastPopup => lastPopup.message ≠ normalizedMessage
  if hasChanged then
    ({ task with
        lastTuiPopup := some ⟨normalizedTitle, normalizedMessage, popupVariant event⟩ },
     noEffects)
  else (task, noEffects)

/-- The `session.idle` branch of `handleEvent`, for the task's own session:
duration-based classification, at-most-once recovery (guarded by
`errorHandled`), buffer flush, stream/timer cleanup, removal from the task
map and the completion callback. -/
def handleIdleEvent (now : Nat) (task : OCTask) (event : OCEvent) :
    OCTask × HEffects :=
  if idleSessionId event == some task.sessionId then
    let sessionDuration := now - task.startedAt
    let immediateLogged := decide (sessionDuration < 1000)
    let quickWarned :=
      !(decide (sessionDuration < 1000)) && decide (sessionDuration < 60000)
    let (task2, recovery1) :=
      match event.error with
      | some e =>
        if !task.errorHandled then
          ({ task with errorHandled := true },
           some (RecoveryCall.viaError (some e)))
        else (task, none)
      | none => (task, (none : Option RecoveryCall))
    let task3 := { task2 with currentMessageBuffer := none }
    let (task4, recovery2) :=
      if decide (sessionDuration < 1000) && !task3.errorHandled then
        ({ task3 with errorHandled := true },
         some (RecoveryCall.viaImmediate sessionDuration))
      else (task3, (none : Option RecoveryCall))
    let failed := event.error.isSome || decide (sessionDuration < 1000)
    let task5 := { task4 with eventSourceOpen := false, statusCheckActive := false }
    (task5,
     { recovery := recovery1 <|> recovery2,
       completedCallback := true,
       removedFromTasks := true,
       immediateFailureLogged := immediateLogged,
       quickIdleWarned := quickWarned,
       sessionEndedFailed := some failed })
  else (task, noEffects)

/-- The `session.status` / `session.error` / `session.blocked` branch of
`handleEvent`: on an error payload or an error/blocked state, run the
recovery at most once, guarded by `errorHandled`. -/
def handleStatusEvent (task : OCTask) (event : OCEvent) : OCTask × HEffects :=
  let state := statusState event
  let error := statusError event
  if error.isSome || state == some "error" || state == some "blocked" then
    if !task.errorHandled then
      ({ task with errorHandled := true },
       { noEffects with recovery := some (RecoveryCall.viaError error) })
    else (task, noEffects)
  else (task, noEffects)

/-- The final `else` branch of `handleEvent`: capture a share link once. -/
def handleShareCapture (task : OCTask) (event : OCEvent) : OCTask × HEffects :=
  match eventShareLink event with
  | some link =>
    if containsSub "opncd.ai".toList link.toList && task.shareLink.isNone then
      ({ task with shareLink := some link }, noEffects)
    else (task, noEffects)
  | none => (task, noEffects)

/-- `OpenCodeManager.handleEvent`, returning the updated task state and the
observable effects.  Branch order and conditions follow the source; the
`message.updated` block and the generic `error` and `todo.updated` branches
are logging-only and do not change task state. -/
def handleEvent (now : Nat) (task : OCTask) (event : OCEvent) : OCTask × HEffects :=
  let task := { task with lastActivity := now }
  let eventType := event.type
  if eventType == "message.part.updated" || eventType == "message.chunk" then
    handlePartEvent eventType task event
  else if eventType == "error" then
    (task, noEffects)
  else if "tui.".toList.isPrefixOf eventType.toList then
    handleTuiEvent task event
  else if eventType == "session.idle" then
    handleIdleEvent now task event
  else if eventType == "session.status" || eventType == "session.error"
      || eventType == "session.blocked" then
    handleStatusEvent task event
  else if eventType == "todo.updated" then
    (task, noEffects)
  else
    handleShareCapture task event

/-- Observable effects of one `checkSessionStatus` poll. -/
structure PollEffects where
  errorBlockedWarned : Bool := false
  stuckWarned : Bool := false
  recovery : Option RecoveryCall := none
  deriving Repr, DecidableEq

/-- `OpenCodeManager.checkSessionStatus`: the periodic status poll.  The
aggregate status map is the environment `statuses` (session id to state).
On an `error`/`blocked` state it logs a warning; on a long-idle state it
logs a stuck warning; it mutates nothing and never calls
`handleSessionError`. -/
def checkSessionStatus (statuses : String → Option String) (now : Nat)
    (task : OCTask) : OCTask × PollEffects :=
  match statuses task.sessionId with
  | none => (task, {})
  | some st =>
    let warned := st == "error" || st == "blocked"
    let stuck := st == "idle" && decide (300000 < now - task.lastActivity)
    (task, { errorBlockedWarned := warned, stuckWarned := stuck, recovery := none })

/-- One observation arriving at the supervisor: a push event from the SSE
stream, or one firing of the status-poll timer. -/
inductive SupEvent where
  | push (now : Nat) (event : OCEvent)
  | poll (now : Nat) (statuses : String → Option String)

/-- Apply one observation; the boolean records whether the compensating
recovery (`handleSessionError`) was invoked. -/
def supStep (task : OCTask) : SupEvent → OCTask × Bool
  | SupEvent.push now event =>
    ((handleEvent now task event).1, ((handleEvent now task event).2).recovery.isSome)
  | SupEvent.poll now statuses =>
    ((checkSessionStatus statuses now task).1,
     ((checkSessionStatus statuses now task).2).recovery.isSome)

/-- Process a whole interleaving of push events and status polls, counting
recovery invocations. -/
def runSupervision : OCTask → List SupEvent → OCTask × Nat
  | task, [] => (task, 0)
  | task, ev :: rest =>
    ((runSupervision (supStep task ev).1 rest).1,
     (if (supStep task ev).2 then 1 else 0) + (runSupervision (supStep task ev).1 rest).2)

/-- A freshly started supervised task (session `s1`, started at time 0). -/
def supTask : OCTask :=
  { sessionId := "s1", issueNumber := 42, startedAt := 0, lastActivity := 0 }

/-- The same task with the error already handled. -/
def supTaskHandled : OCTask := { supTask with errorHandled := true }

/-- Idle event for session `s1` carrying an error payload. -/
def idleErrEvent : OCEvent :=
  { type := "session.idle", sessionID := some "s1", error := some "boom" }

/-- Idle event for session `s1` with no error payload. -/
def idleOkEvent : OCEvent :=
  { type := "session.idle", sessionID := some "s1" }

/-- Explicit session-error event for session `s1`. -/
def sessErrEvent : OCEvent :=
  { type := "session.error", sessionID := some "s1", state := some "error",
    error := some "boom" }

/-- Aggregate status map reporting session `s1` in the `error` state. -/
def pollErrStatuses : String → Option String := fun sid =>
  if sid == "s1" then some "error" else none

/-- A trace of three duplicate failure signals for the same task: an explicit
error event, a status poll observing the error, and an idle-with-error. -/
def dupFailureTrace : List SupEvent :=
  [SupEvent.push 500 sessErrEvent,
   SupEvent.poll 600 pollErrStatuses,
   SupEvent.push 700 idleErrEvent]

/-! ## Branch slugs and paths (`src/utils/slug.ts`, `src/config.ts`) -/

/-- The character class kept by `slugify` after lowercasing:
`[a-z0-9\s-]`. -/
def slugKeep (c : Char) : Bool :=
  ('a' ≤ c && c ≤ 'z') || ('0' ≤ c && c ≤ '9') || c.isWhitespace || c = '-'

/-- `.replace(/\s+/g, '-')`: each maximal whitespace run becomes one
hyphen. -/
def collapseSpacesAux : Bool → List Char → List Char
  | _, [] => []
  | prevWs, c :: rest =>
    if c.isWhitespace then
      if prevWs then collapseSpacesAux true rest
      else '-' :: collapseSpacesAux true rest
    else c :: collapseSpacesAux false rest

/-- The hyphen-run replacement step: each maximal hyphen run becomes one
hyphen. -/
def collapseHyphensAux : Bool → List Char → List Char
  | _, [] => []
  | prevH, c :: rest =>
    if c = '-' then
      if prevH then collapseHyphensAux true rest
      else '-' :: collapseHyphensAux true rest
    else c :: collapseHyphensAux false rest

/-- `.replace(/^-|-$/g, '')`: drop one leading and one trailing hyphen. -/
def dropEdgeHyphens (cs : List Char) : List Char :=
  let cs := match cs with
    | '-' :: rest => rest
    | l => l
  match cs.reverse with
  | '-' :: rest => rest.reverse
  | _ => cs

/-- `slugify` from `src/utils/slug.ts`. -/
def slugify (title : String) : String :=
  let cs := (title.toList.map Char.toLower).filter slugKeep
  let cs := collapseSpacesAux false cs
  let cs := collapseHyphensAux false cs
  let cs := dropEdgeHyphens cs
  String.mk (cs.take 50)

/-- `createBranchSlug`: fall back to `task` on an empty slug. -/
def createBranchSlug (title : String) : String :=
  let slug := slugify title
  if slug.isEmpty then "task" else slug

/-- `getBranchName` from `src/config.ts`. -/
def getBranchName (issueNumber : Nat) (slug : String) : String :=
  "ai/issue-" ++ toString issueNumber ++ "-" ++ slug

/-- `getWorktreePath` from `src/config.ts` (`path.join` as `/`-concat). -/
def getWorktreePath (projectPath worktreeDir : String) (issueNumber : Nat) : String :=
  projectPath ++ "/" ++ worktreeDir ++ "/issue-" ++ toString issueNumber

/-! ## Workspace manager (`WorktreeManager` in `src/tasks/worktree.ts`) -/

/-- A git subprocess invocation recorded by the workspace model. -/
inductive GitOp where
  | symbolicRefQuery
  | showRefQuery (r : String)
  | fetch (branch : String)
  | worktreeAdd (path : String) (branch : String) (fromRef : Option String)
  deriving Repr, DecidableEq

/-- Environment for the git subprocesses `createWorktree` runs: the trimmed
output of `git symbolic-ref refs/remotes/origin/HEAD` (or `none` when that
command fails), whether `origin/main` exists, whether the fetch succeeds,
the local branches, and whether `git worktree add` succeeds. -/
structure GitEnv where
  symbolicRefOriginHead : Option String
  originMainExists : Bool
  fetchOk : Bool
  localBranches : List String
  worktreeAddOk : Bool

/-- `WorktreeManager.getDefaultBranch`, also returning the git queries it
issued. -/
def getDefaultBranch (g : GitEnv) : String × List GitOp :=
  match g.symbolicRefOriginHead with
  | some output =>
    ((output.trim).replace "refs/remotes/origin/" "", [GitOp.symbolicRefQuery])
  | none =>
    if g.originMainExists then
      ("main", [GitOp.symbolicRefQuery, GitOp.showRefQuery "refs/remotes/origin/main"])
    else
      ("master", [GitOp.symbolicRefQuery, GitOp.showRefQuery "refs/remotes/origin/main"])

/-- `WorktreeManager.createWorktree`: reuse an existing workspace directory
without any git operation; otherwise resolve the default branch, fetch it,
and attach the worktree to the existing branch or create a new branch from
`origin/<default>`.  The filesystem is the list of existing worktree paths;
the result carries the path, the updated filesystem and the recorded git
operations; git failures abort with an error. -/
def createWorktree (g : GitEnv) (projectPath worktreeDir : String)
    (fsWorktrees : List String) (issueNumber : Nat) (branchName : String) :
    Except String (String × List String × List GitOp) :=
  let worktreePath := getWorktreePath projectPath worktreeDir issueNumber
  if fsWorktrees.contains worktreePath then
    .ok (worktreePath, fsWorktrees, [])
  else
    let (defaultBranch, ops) := getDefaultBranch g
    if !g.fetchOk then .error "git fetch failed"
    else
      let ops := ops ++ [GitOp.fetch defaultBranch]
      let branchExists := g.localBranches.contains branchName
      let ops := ops ++ [GitOp.showRefQuery ("refs/heads/" ++ branchName)]
      if branchExists then
        if g.worktreeAddOk then
          .ok (worktreePath, fsWorktrees ++ [worktreePath],
               ops ++ [GitOp.worktreeAdd worktreePath branchName none])
        else .error "git worktree add failed"
      else
        if g.worktreeAddOk then
          .ok (worktreePath, fsWorktrees ++ [worktreePath],
               ops ++ [GitOp.worktreeAdd worktreePath branchName
                         (some ("origin/" ++ defaultBranch))])
        else .error "git worktree add failed"

/-! ## Task lifecycle manager (`TaskManager` in `src/tasks/manager.ts`) -/

/-- `TaskPhase` from `manager.ts`. -/
inductive TaskPhase where
  | pending
  | analysis
  | implementation
  | testing
  | quality
  | ci
  | docs
  | pr
  | completed
  | blocked
  | failed
  deriving Repr, DecidableEq

/-- A session-level action performed against the OpenCode server. -/
inductive SessAction where
  | created (sessionId : String)
  | prompted (sessionId : String)
  deriving Repr, DecidableEq

/-- Environment for the OpenCode server calls made when starting or
continuing a task: the id `createSession` returns per issue, whether
`sendPromptAsync` succeeds for a session, and whether `getSession` resolves
(used by the continuation fallback). -/
structure OCEnv where
  createSessionId : Nat → String
  sendPromptOk : String → Bool
  sessionResolvable : String → Bool

/-- `OpenCodeManager.startTask`: create a session, send the prompt (a
failure rethrows), and hand back the fresh supervision state. -/
def ocStartTask (env : OCEnv) (now : Nat) (issue : Issue)
    (worktreePath branchName : String) : Except String (OCTask × List SessAction) :=
  let sid := env.createSessionId issue.number
  if env.sendPromptOk sid then
    .ok ({ sessionId := sid, issueNumber := issue.number, startedAt := now,
           lastActivity := now },
         [SessAction.created sid, SessAction.prompted sid])
  else .error "sendPromptAsync failed"

/-- `OpenCodeManager.continueTask`: when the previous session no longer
resolves, fall back to `startTask` with the recovery branch name; otherwise
resume the existing session with the continuation prompt. -/
def ocContinueTask (env : OCEnv) (now : Nat) (issue : Issue)
    (worktreePath : String) (previousSessionId : String) (newComment : String) :
    Except String (OCTask × List SessAction) :=
  if !(env.sessionResolvable previousSessionId) then
    ocStartTask env now issue worktreePath
      ("ai/issue-" ++ toString issue.number ++ "-recovery")
  else if env.sendPromptOk previousSessionId then
    .ok ({ sessionId := previousSessionId, issueNumber := issue.number,
           startedAt := now, lastActivity := now },
         [SessAction.prompted previousSessionId])
  else .error "sendPromptAsync failed"

/-- `TaskContext` from `manager.ts`. -/
structure TaskContext where
  issueNumber : Nat
  issue : Issue
  branchName : String
  worktreePath : String
  phase : TaskPhase
  startedAt : Nat
  sessionId : Option String
  process : Option OCTask
  deriving Repr, DecidableEq

/-- `activeTasks.get`, over the map modelled as an association list. -/
def lookupTask (m : List (Nat × TaskContext)) (k : Nat) : Option TaskContext :=
  (m.find? (fun p => p.1 == k)).map (fun p => p.2)

/-- `activeTasks.set`: replace in place, or append a new entry. -/
def setTask (m : List (Nat × TaskContext)) (k : Nat) (v : TaskContext) :
    List (Nat × TaskContext) :=
  if (m.find? (fun p => p.1 == k)).isSome then
    m.map (fun p => if p.1 == k then (k, v) else p)
  else m ++ [(k, v)]

/-- `TaskManager.startTask`: return the existing `TaskContext` unchanged when
one is already tracked for the issue (no worktree, no session, no git
operation); otherwise provision the worktree, start the OpenCode session
and record the new context under the issue number. -/
def startTask (genv : GitEnv) (oenv : OCEnv) (projectPath worktreeDir : String)
    (now : Nat) (activeTasks : List (Nat × TaskContext)) (fsWorktrees : List String)
    (issue : Issue) :
    Except String (TaskContext × List (Nat × TaskContext) × List String
      × List GitOp × List SessAction) :=
  match lookupTask activeTasks issue.number with
  | some context => .ok (context, activeTasks, fsWorktrees, [], [])
  | none =>
    let slug := createBranchSlug issue.title
    let branchName := getBranchName issue.number slug
    match createWorktree genv projectPath worktreeDir fsWorktrees issue.number
        branchName with
    | .error e => .error e
    | .ok (worktreePath, fsWorktrees2, gitOps) =>
      match ocStartTask oenv now issue worktreePath branchName with
      | .error e => .error e
      | .ok (proc, actions) =>
        let context : TaskContext :=
          { issueNumber := issue.number, issue := issue, branchName := branchName,
            worktreePath := worktreePath, phase := TaskPhase.analysis,
            startedAt := now, sessionId := some proc.sessionId,
            process := some proc }
        .ok (context, setTask activeTasks issue.number context, fsWorktrees2,
             gitOps, actions)

/-- `TaskManager.continueBlockedTask`: bail out with `null` (and no effect)
when there is no human comment or no current branch; otherwise resume (or
fall back to a fresh session), set the phase to `implementation` and record
the context.  `branchOf` models `worktrees.getCurrentBranch`. -/
def continueBlockedTask (oenv : OCEnv) (username : String)
    (branchOf : Nat → Option String) (projectPath worktreeDir : String)
    (now : Nat) (activeTasks : List (Nat × TaskContext)) (issue : Issue) :
    Except String (Option TaskContext × List (Nat × TaskContext) × List SessAction) :=
  match getLatestHumanComment username issue with
  | none => .ok (none, activeTasks, [])
  | some latestComment =>
    let context? := lookupTask activeTasks issue.number
    let worktreePath := getWorktreePath projectPath worktreeDir issue.number
    match branchOf issue.number with
    | none => .ok (none, activeTasks, [])
    | some branchName =>
      let previousSessionId := (context?.bind (fun c => c.sessionId)).getD "unknown"
      match ocContinueTask oenv now issue worktreePath previousSessionId
          latestComment.body with
      | .error e => .error e
      | .ok (proc, actions) =>
        let context : TaskContext :=
          { issueNumber := issue.number, issue := issue, branchName := branchName,
            worktreePath := worktreePath, phase := TaskPhase.implementation,
            startedAt := (context?.map (fun c => c.startedAt)).getD now,
            sessionId := some proc.sessionId, process := some proc }
        .ok (some context, setTask activeTasks issue.number context, actions)

/-! ## Orchestrator-level admissions, continuations and completions -/

/-- Tasks in the map whose phase is not `completed` and not `failed`. -/
def countActive (m : List (Nat × TaskContext)) : Nat :=
  (m.filter (fun p => !(p.2.phase == TaskPhase.completed)
      && !(p.2.phase == TaskPhase.failed))).length

/-- The operations that touch the active-task map: a discovery-scan
admission (guarded by `canStartNewTask()` and deduplicated by `startTask`),
a duplicate start (no-op), a successful blocked-task continuation (which
performs no cap check, mirroring `checkBlockedTasks` and
`continueBlockedTask`), and the completion callback. -/
inductive OrchAction where
  | admitNew (i : Nat) (context : TaskContext)
  | admitDup (i : Nat)
  | resumeBlocked (i : Nat) (context : TaskContext)
  | completeTask (i : Nat)
  deriving Repr

/-- Whether an action is a blocked-task continuation. -/
def OrchAction.isResume : OrchAction → Bool
  | .resumeBlocked _ _ => true
  | _ => false

/-- Effect of one operation on the active map.  `admitNew` requires the
poller's `canStartNewTask()` (`size < maxConcurrent`) and a fresh issue id,
and stores a context in phase `analysis`; `resumeBlocked` stores a context
in phase `implementation` with no cap check; `completeTask` deletes the
entry. -/
def applyAction (maxC : Nat) (st : List (Nat × TaskContext)) :
    OrchAction → Option (List (Nat × TaskContext))
  | OrchAction.admitNew i context =>
    if st.length < maxC && (lookupTask st i).isNone
        && context.phase == TaskPhase.analysis then
      some (setTask st i context)
    else none
  | OrchAction.admitDup i =>
    if (lookupTask st i).isSome then some st else none
  | OrchAction.resumeBlocked i context =>
    if context.phase == TaskPhase.implementation then some (setTask st i context)
    else none
  | OrchAction.completeTask i =>
    some (st.filter (fun p => !(p.1 == i)))

/-- Run a whole interleaving of admissions, continuations and completions. -/
def runActions (maxC : Nat) : List (Nat × TaskContext) → List OrchAction →
    Option (List (Nat × TaskContext))
  | st, [] => some st
  | st, a :: rest =>
    match applyAction maxC st a with
    | some st2 => runActions maxC st2 rest
    | none => none

/-- Concrete contexts for the C4 counterexample and the C5/C10 witnesses. -/
def ctxA : TaskContext :=
  { issueNumber := 1, issue := issueHigh, branchName := "ai/issue-1-a",
    worktreePath := "/p/.worktrees/issue-1", phase := TaskPhase.analysis,
    startedAt := 0, sessionId := some "s1", process := none }

def ctxB : TaskContext :=
  { issueNumber := 2, issue := issueNone, branchName := "ai/issue-2-b",
    worktreePath := "/p/.worktrees/issue-2", phase := TaskPhase.implementation,
    startedAt := 0, sessionId := some "s2", process := none }

/-- Git environment for the C5 witness. -/
def genvC5 : GitEnv :=
  { symbolicRefOriginHead := none, originMainExists := true, fetchOk := true,
    localBranches := [], worktreeAddOk := true }

/-- OpenCode environment for the C5/C10 witnesses. -/
def oenvC5 : OCEnv :=
  { createSessionId := fun _ => "sess", sendPromptOk := fun _ => true,
    sessionResolvable := fun _ => true }

/-- A blocked issue whose only comment is from the orchestrator itself. -/
def issueBlockedBotOnly : Issue :=
  { number := 9, title := "blocked", body := "", labels := ["ai-blocked"],
    comments := [{ id := 1, body := "working on it", author := "botuser",
                   createdAt := 5 }],
    createdAt := 1, updatedAt := 6, author := none }

/-! ## Ordering facts about the stable priority sort -/

theorem mem_insertByPriority {z x : Issue} {l : List Issue} :
    z ∈ insertByPriority x l ↔ z = x ∨ z ∈ l := by
  induction l with
  | nil => simp [insertByPriority]
  | cons y ys ih =>
    simp only [insertByPriority]
    by_cases h : prioNum x < prioNum y
    · simp only [if_pos h, List.mem_cons]
    · simp only [if_neg h, List.mem_cons, ih]
      tauto

theorem pairwise_insertByPriority {x : Issue} {l : List Issue}
    (hl : l.Pairwise prioCreatedLE)
    (hc : ∀ y ∈ l, y.createdAt ≤ x.createdAt) :
    (insertByPriority x l).Pairwise prioCreatedLE := by
  induction l with
  | nil => simp [insertByPriority]
  | cons y ys ih =>
    simp only [insertByPriority]
    rcases List.pairwise_cons.mp hl with ⟨hy, hys⟩
    by_cases h : prioNum x < prioNum y
    · simp only [if_pos h]
      refine List.pairwise_cons.mpr ⟨?_, hl⟩
      intro z hz
      rcases List.mem_cons.mp hz with rfl | hz
      · exact Or.inl h
      · rcases hy z hz with h' | ⟨h1, _⟩
        · exact Or.inl (Nat.lt_trans h h')
        · exact Or.inl (h1 ▸ h)
    · simp only [if_neg h]
      refine List.pairwise_cons.mpr ⟨?_, ?_⟩
      · intro z hz
        rcases mem_insertByPriority.mp hz with rfl | hz
        · rcases Nat.lt_or_ge (prioNum y) (prioNum z) with h' | h'
          · exact Or.inl h'
          · have : prioNum y = prioNum z := Nat.le_antisymm (Nat.le_of_not_lt h) h'
            exact Or.inr ⟨this, hc y (by simp)⟩
        · exact hy z hz
      · exact ih hys (fun y' hy' => hc y' (by simp [hy']))

theorem pairwise_sortByPriorityAux {xs acc : List Issue}
    (hacc : acc.Pairwise prioCreatedLE)
    (hxs : xs.Pairwise (fun a b => a.createdAt ≤ b.createdAt))
    (hcross : ∀ x ∈ xs, ∀ y ∈ acc, y.createdAt ≤ x.createdAt) :
    (sortByPriorityAux xs acc).Pairwise prioCreatedLE := by
  induction xs generalizing acc with
  | nil => simpa [sortByPriorityAux] using hacc
  | cons x xs ih =>
    simp only [sortByPriorityAux]
    rcases List.pairwise_cons.mp hxs with ⟨hx, hxs'⟩
    refine ih (pairwise_insertByPriority hacc (hcross x (by simp))) hxs' ?_
    intro x' hx' y hy
    rcases mem_insertByPriority.mp hy with rfl | hy
    · exact hx x' hx'
    · exact hcross x' (by simp [hx']) y hy

/-- The stable priority sort of a creation-time-ascending list is sorted by
priority bucket with creation-time tie-break. -/
theorem pairwise_sortByPriority {issues : List Issue}
    (h : issues.Pairwise (fun a b => a.createdAt ≤ b.createdAt)) :
    (sortByPriority issues).Pairwise prioCreatedLE := by
  exact pairwise_sortByPriorityAux (by simp) h (by simp)

/-- When no `startTask` call throws, the admission loop admits exactly the
first `maxC - active` eligible issues, in order. -/
theorem admitLoop_eq_take {maxC : Nat} {allowedUsers : List String}
    {startOk : Issue → Bool} (hok : ∀ i, startOk i = true) :
    ∀ (l : List Issue) (active : Nat),
      admitLoop maxC allowedUsers startOk l active
        = (l.filter (eligibleForStart allowedUsers)).take (maxC - active) := by
  intro l
  induction l with
  | nil => intro active; simp [admitLoop]
  | cons issue rest ih =>
    intro active
    simp only [admitLoop]
    by_cases hcap : maxC ≤ active
    · have : maxC - active = 0 := Nat.sub_eq_zero_of_le hcap
      simp [hcap, this]
    · have hlt : active < maxC := Nat.lt_of_not_le hcap
      by_cases helig : eligibleForStart allowedUsers issue
      · have hsub : maxC - active = (maxC - (active + 1)) + 1 := by omega
        simp [hcap, helig, hok issue, ih (active + 1), hsub]
      · simp [hcap, helig, ih active]

/-! ## C6: discovery-scan admission order -/

/-- C6: within one discovery scan on a creation-time-ascending issue list,
and with no `startTask` failure, `checkNewTasks` admits exactly the first
`maxConcurrent - active` eligible issues of the priority-sorted list (so
admission proceeds in priority order and stops at the first cap refusal,
never skipping ahead), and the priority-sorted list is ordered by bucket
(high, medium, low, none) with creation-time-ascending tie-break. -/
theorem checkNewTasks_priority_order_and_cap
    (maxC : Nat) (allowedUsers : List String) (startOk : Issue → Bool)
    (issues : List Issue) (active : Nat)
    (hcreated : issues.Pairwise (fun a b => a.createdAt ≤ b.createdAt))
    (hok : ∀ i, startOk i = true) :
    checkNewTasks maxC allowedUsers startOk issues active
      = ((sortByPriority issues).filter (eligibleForStart allowedUsers)).take
          (maxC - active)
    ∧ (sortByPriority issues).Pairwise prioCreatedLE := by
  constructor
  · unfold checkNewTasks
    by_cases hcap : maxC ≤ active
    · have : maxC - active = 0 := Nat.sub_eq_zero_of_le hcap
      simp [hcap, this]
    · simp [hcap, admitLoop_eq_take hok]
  · exact pairwise_sortByPriority hcreated

theorem checkNewTasks_priority_order_and_cap_witness :
    checkNewTasks 2 [] (fun _ => true) [issueHigh, issueNone, issueMedium] 0
      = ((sortByPriority [issueHigh, issueNone, issueMedium]).filter
          (eligibleForStart [])).take (2 - 0)
    ∧ (sortByPriority [issueHigh, issueNone, issueMedium]).Pairwise prioCreatedLE :=
  checkNewTasks_priority_order_and_cap 2 [] (fun _ => true)
    [issueHigh, issueNone, issueMedium] 0 (by decide) (fun _ => rfl)

/-! ## C9: removing an absent label -/

/-- C9: `removeLabel` succeeds when the tracker reports the label absent
(status 404) and rethrows every other failure status; a successful API call
also completes successfully. -/
theorem removeLabel_404_ok_other_rethrown
    (api : Nat → String → Except Nat Unit) (issueNumber : Nat) (label : String) :
    (api issueNumber label = .error 404 →
        removeLabel api issueNumber label = .ok ())
    ∧ (∀ status, status ≠ 404 → api issueNumber label = .error status →
        removeLabel api issueNumber label = .error status)
    ∧ (api issueNumber label = .ok () →
        removeLabel api issueNumber label = .ok ()) := by
  refine ⟨?_, ?_, ?_⟩
  · intro h; simp [removeLabel, h]
  · intro status hne h; simp [removeLabel, h, hne]
  · intro h; simp [removeLabel, h]

theorem removeLabel_404_ok_other_rethrown_witness :
    removeLabel (fun _ _ => .error 404) 7 "ai-in-progress" = .ok ()
    ∧ removeLabel (fun _ _ => .error 500) 7 "ai-in-progress" = .error 500 :=
  ⟨(removeLabel_404_ok_other_rethrown (fun _ _ => .error 404) 7 "ai-in-progress").1 rfl,
   (removeLabel_404_ok_other_rethrown (fun _ _ => .error 500) 7 "ai-in-progress").2.1
     500 (by decide) rfl⟩

/-! ## C7: gate pipeline stops at the first failing required gate -/

theorem runGatesLoop_eq_take
    (exec : List String → Except (String × String) String) :
    ∀ gates : List QualityGate,
      runGatesLoop exec gates
        = (gates.take (gateStopCount exec gates)).map (runGate exec) := by
  intro gates
  induction gates with
  | nil => simp [runGatesLoop, gateStopCount]
  | cons gate rest ih =>
    simp only [runGatesLoop, gateStopCount]
    by_cases h : (!(runGate exec gate).passed && gate.required) = true
    · rw [Bool.and_comm] at h
      simp [h, Bool.and_comm]
    · rw [Bool.and_comm] at h
      simp [h, ih, Bool.and_comm]

theorem gateStopCount_before
    (exec : List String → Except (String × String) String) :
    ∀ (gates : List QualityGate) (i : Nat) (g : QualityGate),
      i + 1 < gateStopCount exec gates → gates[i]? = some g →
      (!(runGate exec g).passed && g.required) = false := by
  intro gates
  induction gates with
  | nil => intro i g hi hg; simp at hg
  | cons gate rest ih =>
    intro i g hi hg
    simp only [gateStopCount] at hi
    by_cases h : (!(runGate exec gate).passed && gate.required) = true
    · rw [if_pos h] at hi; omega
    · simp only [h, if_neg, Bool.false_eq_true, if_false] at hi
      cases i with
      | zero =>
        simp at hg
        subst hg
        exact Bool.eq_false_iff.mpr h
      | succ j =>
        simp only [List.getElem?_cons_succ] at hg
        exact ih j g (by omega) hg

theorem gateStopCount_at
    (exec : List String → Except (String × String) String) :
    ∀ gates : List QualityGate,
      gateStopCount exec gates < gates.length →
      ∃ g, gates[gateStopCount exec gates - 1]? = some g
        ∧ (!(runGate exec g).passed && g.required) = true := by
  intro gates
  induction gates with
  | nil => intro h; simp [gateStopCount] at h
  | cons gate rest ih =>
    intro h
    simp only [gateStopCount] at h ⊢
    by_cases hg : (!(runGate exec gate).passed && gate.required) = true
    · exact ⟨gate, by simp [hg], hg⟩
    · simp only [hg, Bool.false_eq_true, if_false] at h ⊢
      have hlen : gateStopCount exec rest < rest.length := by
        simp only [List.length_cons] at h; omega
      obtain ⟨g, hget, hfail⟩ := ih hlen
      have hpos : 1 ≤ gateStopCount exec rest := by
        cases rest with
        | nil => simp at hlen
        | cons a l =>
          simp only [gateStopCount]
          split <;> omega
      refine ⟨g, ?_, hfail⟩
      have : gateStopCount exec rest + 1 - 1 = (gateStopCount exec rest - 1) + 1 := by omega
      rw [this, List.getElem?_cons_succ]
      exact hget

/-- C7: `runAllGates` returns exactly the results of the executed prefix of
the detected gates, in execution order; no gate strictly before the stop
point is a failing required gate, and when the pipeline stopped early the
last executed gate is a failing required gate. -/
theorem runAllGates_stops_at_first_required_failure
    (fs : String → DirProbe)
    (exec : List String → Except (String × String) String)
    (worktreePath : String) :
    runAllGates fs exec worktreePath
      = ((detectGates fs worktreePath).take
          (gateStopCount exec (detectGates fs worktreePath))).map (runGate exec)
    ∧ (∀ (i : Nat) (g : QualityGate),
        i + 1 < gateStopCount exec (detectGates fs worktreePath) →
        (detectGates fs worktreePath)[i]? = some g →
        (!(runGate exec g).passed && g.required) = false)
    ∧ (gateStopCount exec (detectGates fs worktreePath)
          < (detectGates fs worktreePath).length →
        ∃ g, (detectGates fs worktreePath)[gateStopCount exec
                (detectGates fs worktreePath) - 1]? = some g
          ∧ (!(runGate exec g).passed && g.required) = true) :=
  ⟨runGatesLoop_eq_take exec (detectGates fs worktreePath),
   fun i g => gateStopCount_before exec (detectGates fs worktreePath) i g,
   gateStopCount_at exec (detectGates fs worktreePath)⟩

theorem runAllGates_stops_at_first_required_failure_witness :
    (runAllGates fsC7 execC7 "/rust"
      = ((detectGates fsC7 "/rust").take
          (gateStopCount execC7 (detectGates fsC7 "/rust"))).map (runGate execC7))
    ∧ ((!(runGate execC7 ⟨"Linting", ["cargo", "clippy"], true⟩).passed
          && (true : Bool)) = false)
    ∧ (∃ g, (detectGates fsC7 "/rust")[gateStopCount execC7
              (detectGates fsC7 "/rust") - 1]? = some g
          ∧ (!(runGate execC7 g).passed && g.required) = true) :=
  ⟨(runAllGates_stops_at_first_required_failure fsC7 execC7 "/rust").1,
   (runAllGates_stops_at_first_required_failure fsC7 execC7 "/rust").2.1 0
      ⟨"Linting", ["cargo", "clippy"], true⟩ (by decide) (by decide),
   (runAllGates_stops_at_first_required_failure fsC7 execC7 "/rust").2.2 (by decide)⟩

/-! ## C8: `allRequiredPassed` does not look at the workspace -/

/-- C8 counterexample: with a workspace `/ws` whose detected gate list has a
required `Tests` gate and an empty result list, `allRequiredPassed` returns
`true` (it recomputes the gates for the empty path, where nothing is
detected), contradicting the claimed equivalence with "every required gate
of the workspace has a passing result". -/
theorem allRequiredPassed_ignores_workspace_cex :
    ¬ (allRequiredPassed fsC8 ([] : List QualityResult) = true ↔
       ∀ name ∈ ((detectGates fsC8 "/ws").filter (fun g => g.required)).map
           (fun g => g.name),
         ∃ r ∈ ([] : List QualityResult), r.gate = name ∧ r.passed = true) := by
  decide

/-- C8 amended: `allRequiredPassed` recomputes the gate list for the empty
path (not the workspace) and returns `true` iff every gate name required in
that recomputed list has its first matching result passing. -/
theorem allRequiredPassed_iff_empty_path_gates
    (fs : String → DirProbe) (results : List QualityResult) :
    allRequiredPassed fs results = true ↔
      ∀ name ∈ ((detectGates fs "").filter (fun g => g.required)).map
          (fun g => g.name),
        ∃ r, results.find? (fun r' => r'.gate == name) = some r
          ∧ r.passed = true := by
  simp only [allRequiredPassed, List.all_eq_true]
  refine forall_congr' (fun name => ?_)
  refine imp_congr_right (fun _ => ?_)
  cases h : results.find? (fun r' => r'.gate == name) with
  | none => simp [h]
  | some r => simp [h]

/-! ## Supervisor lemmas: the error-handled flag -/

theorem handlePartEvent_inert (eventType : String) (task : OCTask) (event : OCEvent) :
    ((handlePartEvent eventType task event).1).errorHandled = task.errorHandled
    ∧ ((handlePartEvent eventType task event).2).recovery = none := by
  unfold handlePartEvent
  cases eventPart event with
  | none => simp [noEffects]
  | some part =>
    dsimp only
    constructor
    · split_ifs <;> rfl
    · split_ifs <;> rfl

theorem handleTuiEvent_inert (task : OCTask) (event : OCEvent) :
    ((handleTuiEvent task event).1).errorHandled = task.errorHandled
    ∧ ((handleTuiEvent task event).2).recovery = none := by
  unfold handleTuiEvent
  dsimp only
  constructor
  · split_ifs <;> rfl
  · split_ifs <;> rfl

theorem handleShareCapture_inert (task : OCTask) (event : OCEvent) :
    ((handleShareCapture task event).1).errorHandled = task.errorHandled
    ∧ ((handleShareCapture task event).2).recovery = none := by
  unfold handleShareCapture
  cases eventShareLink event with
  | none => simp [noEffects]
  | some link =>
    dsimp only
    constructor
    · split_ifs <;> rfl
    · split_ifs <;> rfl

theorem handleIdleEvent_mono (now : Nat) (task : OCTask) (event : OCEvent)
    (h : task.errorHandled = true) :
    ((handleIdleEvent now task event).1).errorHandled = true := by
  unfold handleIdleEvent
  cases he : event.error <;>
    by_cases hs : (idleSessionId event == some task.sessionId) = true <;>
      simp_all [noEffects]

theorem handleIdleEvent_recovery (now : Nat) (task : OCTask) (event : OCEvent)
    (h : ((handleIdleEvent now task event).2).recovery.isSome = true) :
    task.errorHandled = false ∧ ((handleIdleEvent now task event).1).errorHandled = true := by
  by_cases hf : task.errorHandled = true
  · exfalso
    unfold handleIdleEvent at h
    cases he : event.error <;>
      by_cases hs : (idleSessionId event == some task.sessionId) = true <;>
        simp_all [noEffects]
  · have hf' : task.errorHandled = false := by simpa using hf
    refine ⟨hf', ?_⟩
    unfold handleIdleEvent at h ⊢
    cases he : event.error <;>
      by_cases hs : (idleSessionId event == some task.sessionId) = true <;>
        by_cases hd : now - task.startedAt < 1000 <;>
          simp_all [noEffects]

theorem handleStatusEvent_mono (task : OCTask) (event : OCEvent)
    (h : task.errorHandled = true) :
    ((handleStatusEvent task event).1).errorHandled = true := by
  unfold handleStatusEvent
  split_ifs <;> simp_all

theorem handleStatusEvent_recovery (task : OCTask) (event : OCEvent)
    (h : ((handleStatusEvent task event).2).recovery.isSome = true) :
    task.errorHandled = false ∧ ((handleStatusEvent task event).1).errorHandled = true := by
  by_cases hf : task.errorHandled = true <;>
    by_cases hc : ((statusError event).isSome = true
        ∨ statusState event = some "error") ∨ statusState event = some "blocked" <;>
      simp_all [handleStatusEvent, noEffects]

theorem handleEvent_errorHandled_mono (now : Nat) (task : OCTask) (event : OCEvent)
    (h : task.errorHandled = true) :
    ((handleEvent now task event).1).errorHandled = true := by
  unfold handleEvent
  dsimp only
  split_ifs with h1 h2 h3 h4 h5 h6
  · rw [(handlePartEvent_inert event.type { task with lastActivity := now } event).1]
    exact h
  · exact h
  · rw [(handleTuiEvent_inert { task with lastActivity := now } event).1]
    exact h
  · exact handleIdleEvent_mono now { task with lastActivity := now } event h
  · exact handleStatusEvent_mono { task with lastActivity := now } event h
  · exact h
  · rw [(handleShareCapture_inert { task with lastActivity := now } event).1]
    exact h

theorem handleEvent_recovery_sets_flag (now : Nat) (task : OCTask) (event : OCEvent)
    (h : ((handleEvent now task event).2).recovery.isSome = true) :
    task.errorHandled = false ∧ ((handleEvent now task event).1).errorHandled = true := by
  unfold handleEvent at h ⊢
  dsimp only at h ⊢
  split_ifs at h ⊢ with h1 h2 h3 h4 h5 h6
  · rw [(handlePartEvent_inert event.type { task with lastActivity := now } event).2] at h
    simp at h
  · simp [noEffects] at h
  · rw [(handleTuiEvent_inert { task with lastActivity := now } event).2] at h
    simp at h
  · exact handleIdleEvent_recovery now { task with lastActivity := now } event h
  · exact handleStatusEvent_recovery { task with lastActivity := now } event h
  · simp [noEffects] at h
  · rw [(handleShareCapture_inert { task with lastActivity := now } event).2] at h
    simp at h

theorem checkSessionStatus_no_mutation (statuses : String → Option String)
    (now : Nat) (task : OCTask) :
    (checkSessionStatus statuses now task).1 = task
    ∧ ((checkSessionStatus statuses now task).2).recovery = none := by
  unfold checkSessionStatus
  split <;> simp

/-! ## C1: at-most-once recovery and monotone error-handled flag -/

/-- C1: along any interleaving of push events and status polls, however many
duplicate failure signals it contains and in whatever order, the
compensating recovery (`handleSessionError`) runs at most once per task
(not at all when the flag is already set), and the error-handled flag, once
`true`, stays `true` for the rest of the task's lifetime. -/
theorem supervision_recovery_at_most_once (task : OCTask) (trace : List SupEvent) :
    (runSupervision task trace).2 ≤ (if task.errorHandled then 0 else 1)
    ∧ (task.errorHandled = true → ((runSupervision task trace).1).errorHandled = true) := by
  induction trace generalizing task with
  | nil =>
    refine ⟨?_, ?_⟩
    · simp only [runSupervision]
      exact Nat.zero_le _
    · intro h
      simpa [runSupervision] using h
  | cons ev rest ih =>
    cases ev with
    | push now event =>
      simp only [runSupervision, supStep]
      by_cases hfire : ((handleEvent now task event).2).recovery.isSome = true
      · obtain ⟨hpre, hpost⟩ := handleEvent_recovery_sets_flag now task event hfire
        refine ⟨?_, ?_⟩
        · have h1 : (runSupervision (handleEvent now task event).1 rest).2 ≤ 0 := by
            simpa [hpost] using (ih (handleEvent now task event).1).1
          simp [hfire, hpre]
          omega
        · intro habs
          rw [habs] at hpre
          exact absurd hpre (by simp)
      · have hfire' : ((handleEvent now task event).2).recovery.isSome = false := by
          simpa using hfire
        refine ⟨?_, ?_⟩
        · by_cases hflag : task.errorHandled = true
          · have hpost := handleEvent_errorHandled_mono now task event hflag
            have h1 : (runSupervision (handleEvent now task event).1 rest).2 ≤ 0 := by
              simpa [hpost] using (ih (handleEvent now task event).1).1
            simp [hfire', hflag]
            omega
          · have hflag' : task.errorHandled = false := by simpa using hflag
            have hite : (if ((handleEvent now task event).1).errorHandled then 0 else 1) ≤ 1 := by
              split <;> omega
            have h1 : (runSupervision (handleEvent now task event).1 rest).2 ≤ 1 :=
              Nat.le_trans (ih (handleEvent now task event).1).1 hite
            simp [hfire', hflag']
            omega
        · intro habs
          exact (ih (handleEvent now task event).1).2
            (handleEvent_errorHandled_mono now task event habs)
    | poll now statuses =>
      obtain ⟨hid, hrec⟩ := checkSessionStatus_no_mutation statuses now task
      simp only [runSupervision, supStep, hid, hrec]
      have := ih task
      simpa using this

theorem supervision_recovery_at_most_once_witness :
    (runSupervision supTaskHandled dupFailureTrace).2 ≤ 0
    ∧ ((runSupervision supTaskHandled dupFailureTrace).1).errorHandled = true :=
  ⟨by
    have h := (supervision_recovery_at_most_once supTaskHandled dupFailureTrace).1
    simpa [supTaskHandled, supTask] using h,
   (supervision_recovery_at_most_once supTaskHandled dupFailureTrace).2 rfl⟩

/-! ## C2: terminal-idle classification -/

theorem handleEvent_idle_reduces (now : Nat) (task : OCTask) (event : OCEvent)
    (htype : event.type = "session.idle") :
    handleEvent now task event
      = handleIdleEvent now { task with lastActivity := now } event := by
  unfold handleEvent
  dsimp only
  rw [htype]
  simp only [show ("session.idle" == "message.part.updated"
        || "session.idle" == "message.chunk") = false from by decide,
      show ("session.idle" == "error") = false from by decide,
      show List.isPrefixOf "tui.".toList "session.idle".toList = false from by decide,
      show ("session.idle" == "session.idle") = true from by decide,
      Bool.false_eq_true, if_false, if_true]

/-- C2: for a terminal-idle event whose session id equals the task's own id,
on a task whose error is not yet handled, the outcome depends only on the
elapsed duration and the presence of an error payload: under 1s the
immediate (configuration/validation) failure is logged, the outcome is
failed and recovery runs (with the synthesized immediate-failure error when
no payload is attached); between 1s and 60s with no payload the
suspicious-incomplete warning is logged and no recovery runs; at 60s or
more with no payload the outcome is success with no warnings and no
recovery; and an attached error payload always yields a failed outcome with
recovery on that payload, regardless of duration. -/
theorem idle_classification (now : Nat) (task : OCTask) (event : OCEvent)
    (hfresh : task.errorHandled = false)
    (htype : event.type = "session.idle")
    (hsid : idleSessionId event = some task.sessionId) :
    (now - task.startedAt < 1000 →
        ((handleEvent now task event).2).immediateFailureLogged = true
        ∧ ((handleEvent now task event).2).sessionEndedFailed = some true
        ∧ ((handleEvent now task event).2).recovery.isSome = true)
    ∧ (now - task.startedAt < 1000 → event.error = none →
        ((handleEvent now task event).2).recovery
          = some (RecoveryCall.viaImmediate (now - task.startedAt)))
    ∧ (1000 ≤ now - task.startedAt → now - task.startedAt < 60000 →
        event.error = none →
        ((handleEvent now task event).2).quickIdleWarned = true
        ∧ ((handleEvent now task event).2).recovery = none
        ∧ ((handleEvent now task event).2).sessionEndedFailed = some false)
    ∧ (60000 ≤ now - task.startedAt → event.error = none →
        ((handleEvent now task event).2).sessionEndedFailed = some false
        ∧ ((handleEvent now task event).2).recovery = none
        ∧ ((handleEvent now task event).2).quickIdleWarned = false
        ∧ ((handleEvent now task event).2).immediateFailureLogged = false)
    ∧ (∀ e, event.error = some e →
        ((handleEvent now task event).2).sessionEndedFailed = some true
        ∧ ((handleEvent now task event).2).recovery
            = some (RecoveryCall.viaError (some e))) := by
  have hred := handleEvent_idle_reduces now task event htype
  have hsid' : (idleSessionId event == some task.sessionId) = true := by simp [hsid]
  rw [hred]
  refine ⟨?_, ?_, ?_, ?_, ?_⟩
  · intro hd
    cases he : event.error with
    | none => simp [handleIdleEvent, hsid', he, hfresh, hd]
    | some e => simp [handleIdleEvent, hsid', he, hfresh, hd]
  · intro hd he
    simp [handleIdleEvent, hsid', he, hfresh, hd]
  · intro h1 h2 he
    have hnd : ¬ (now - task.startedAt < 1000) := by omega
    simp [handleIdleEvent, hsid', he, hfresh, hnd, h2]
  · intro h1 he
    have hnd : ¬ (now - task.startedAt < 1000) := by omega
    have hnd2 : ¬ (now - task.startedAt < 60000) := by omega
    simp [handleIdleEvent, hsid', he, hfresh, hnd, hnd2]
  · intro e he
    simp [handleIdleEvent, hsid', he, hfresh]

theorem idle_classification_witness :
    ((handleEvent 70000 supTask idleOkEvent).2).sessionEndedFailed = some false
    ∧ ((handleEvent 70000 supTask idleOkEvent).2).recovery = none
    ∧ ((handleEvent 70000 supTask idleOkEvent).2).quickIdleWarned = false
    ∧ ((handleEvent 70000 supTask idleOkEvent).2).immediateFailureLogged = false :=
  (idle_classification 70000 supTask idleOkEvent rfl rfl (by decide)).2.2.2.1
    (by decide) rfl

/-! ## C3: the status-poll channel does not trigger recovery -/

/-- C3 counterexample: the status poll observes the task's session in the
`error` state while the task's error is not yet handled, yet
`checkSessionStatus` triggers no recovery and leaves the error-handled flag
unset — the poll channel only logs, it does not feed the recovery logic. -/
theorem poll_channel_no_recovery_cex :
    pollErrStatuses supTask.sessionId = some "error"
    ∧ supTask.errorHandled = false
    ∧ ((checkSessionStatus pollErrStatuses 5000 supTask).2).recovery = none
    ∧ ((checkSessionStatus pollErrStatuses 5000 supTask).1).errorHandled = false := by
  refine ⟨rfl, rfl, rfl, rfl⟩

/-- C3 amended: when the fixed-interval status poll observes an error or
blocked state it logs a warning only — it never mutates the task and never
triggers the compensating recovery; recovery is triggered only by the push
event channel, where it is guarded by the error-handled flag (it fires only
on a task whose flag was unset, and sets the flag). -/
theorem checkSessionStatus_logs_only_push_recovers
    (statuses : String → Option String) (now : Nat) (task : OCTask) :
    (checkSessionStatus statuses now task).1 = task
    ∧ ((checkSessionStatus statuses now task).2).recovery = none
    ∧ (statuses task.sessionId = some "error"
        ∨ statuses task.sessionId = some "blocked" →
        ((checkSessionStatus statuses now task).2).errorBlockedWarned = true)
    ∧ (∀ (n : Nat) (t : OCTask) (e : OCEvent),
        ((handleEvent n t e).2).recovery.isSome = true →
        t.errorHandled = false ∧ ((handleEvent n t e).1).errorHandled = true) := by
  refine ⟨(checkSessionStatus_no_mutation statuses now task).1,
          (checkSessionStatus_no_mutation statuses now task).2, ?_,
          fun n t e h => handleEvent_recovery_sets_flag n t e h⟩
  intro h
  unfold checkSessionStatus
  rcases h with h | h <;> simp [h]

theorem checkSessionStatus_logs_only_push_recovers_witness :
    (checkSessionStatus pollErrStatuses 5000 supTask).1 = supTask
    ∧ ((checkSessionStatus pollErrStatuses 5000 supTask).2).recovery = none
    ∧ ((checkSessionStatus pollErrStatuses 5000 supTask).2).errorBlockedWarned = true :=
  ⟨(checkSessionStatus_logs_only_push_recovers pollErrStatuses 5000 supTask).1,
   (checkSessionStatus_logs_only_push_recovers pollErrStatuses 5000 supTask).2.1,
   (checkSessionStatus_logs_only_push_recovers pollErrStatuses 5000 supTask).2.2.1
     (Or.inl (by decide))⟩

/-! ## C4: the concurrency cap and blocked-task continuations -/

theorem length_setTask (m : List (Nat × TaskContext)) (k : Nat) (v : TaskContext) :
    (setTask m k v).length
      = if (m.find? (fun p => p.1 == k)).isSome then m.length else m.length + 1 := by
  unfold setTask
  split <;> simp

theorem applyAction_length_le (maxC : Nat) (st st2 : List (Nat × TaskContext))
    (a : OrchAction) (ha : applyAction maxC st a = some st2)
    (hna : a.isResume = false) (hlen : st.length ≤ maxC) : st2.length ≤ maxC := by
  cases a with
  | admitNew i context =>
    simp only [applyAction] at ha
    split_ifs at ha with hc
    · obtain rfl : setTask st i context = st2 := by simpa using ha
      rw [length_setTask]
      have hlt : st.length < maxC := by
        have := hc
        simp only [Bool.and_eq_true, decide_eq_true_eq] at this
        exact this.1.1
      split
      · exact hlen
      · omega
  | admitDup i =>
    simp only [applyAction] at ha
    split_ifs at ha
    obtain rfl : st = st2 := by simpa using ha
    exact hlen
  | resumeBlocked i context =>
    simp [OrchAction.isResume] at hna
  | completeTask i =>
    simp only [applyAction] at ha
    obtain rfl : st.filter (fun p => !(p.1 == i)) = st2 := by simpa using ha
    exact Nat.le_trans (List.length_filter_le _ _) hlen

theorem runActions_length_le (maxC : Nat) :
    ∀ (acts : List OrchAction) (st0 st : List (Nat × TaskContext)),
      st0.length ≤ maxC →
      runActions maxC st0 acts = some st →
      acts.all (fun a => !a.isResume) = true →
      st.length ≤ maxC := by
  intro acts
  induction acts with
  | nil =>
    intro st0 st h0 hrun _
    simp only [runActions, Option.some.injEq] at hrun
    rwa [← hrun]
  | cons a rest ih =>
    intro st0 st h0 hrun hall
    simp only [runActions] at hrun
    cases ha : applyAction maxC st0 a with
    | none => rw [ha] at hrun; simp at hrun
    | some st1 =>
      rw [ha] at hrun
      rw [List.all_cons, Bool.and_eq_true] at hall
      obtain ⟨hna, hrest⟩ := hall
      have hna' : a.isResume = false := by simpa using hna
      exact ih st1 st (applyAction_length_le maxC st0 st1 a ha hna' h0) hrun hrest

theorem countActive_le_length (m : List (Nat × TaskContext)) :
    countActive m ≤ m.length :=
  List.length_filter_le _ _

/-- C4 counterexample: the claimed invariant — in every reachable state
under interleavings of discovery admissions, blocked-task continuations and
completions, at most `maxConcurrent` tasks are active — is false: with
`maxConcurrent = 1`, admitting issue 1 and then continuing blocked issue 2
(which performs no cap check) yields two active tasks. -/
theorem orchestrator_cap_cex :
    ¬ (∀ (acts : List OrchAction) (st : List (Nat × TaskContext)),
        runActions 1 [] acts = some st → countActive st ≤ 1) := by
  intro h
  have h2 := h [OrchAction.admitNew 1 ctxA, OrchAction.resumeBlocked 2 ctxB]
      [(1, ctxA), (2, ctxB)] (by rfl)
  exact absurd h2 (by decide)

/-- C4 amended: under every interleaving of discovery-scan admissions,
duplicate starts and completion callbacks — blocked-task continuations
excluded, since `checkBlockedTasks`/`continueBlockedTask` perform no cap
check and can exceed the cap — the number of in-memory tasks whose phase is
neither `completed` nor `failed` never exceeds `maxConcurrent`. -/
theorem orchestrator_cap_without_continuations
    (maxC : Nat) (acts : List OrchAction) (st : List (Nat × TaskContext))
    (hrun : runActions maxC [] acts = some st)
    (hnores : acts.all (fun a => !a.isResume) = true) :
    countActive st ≤ maxC :=
  Nat.le_trans (countActive_le_length st)
    (runActions_length_le maxC acts [] st (by simp) hrun hnores)

theorem orchestrator_cap_without_continuations_witness :
    countActive [(1, ctxA)] ≤ 2 :=
  orchestrator_cap_without_continuations 2 [OrchAction.admitNew 1 ctxA]
    [(1, ctxA)] (by rfl) (by rfl)

/-! ## C5: idempotent start, reused workspace -/

/-- C5: starting a task whose issue id is already tracked returns the stored
`TaskContext` with the state unchanged — no git operation and no session
action; and provisioning a workspace whose directory already exists returns
its path unchanged with the filesystem untouched and no git operation. -/
theorem startTask_idempotent_worktree_reuse
    (genv : GitEnv) (oenv : OCEnv) (projectPath worktreeDir : String) (now : Nat)
    (activeTasks : List (Nat × TaskContext)) (fsWorktrees : List String)
    (issue : Issue) (context : TaskContext)
    (hdup : lookupTask activeTasks issue.number = some context) :
    startTask genv oenv projectPath worktreeDir now activeTasks fsWorktrees issue
      = .ok (context, activeTasks, fsWorktrees, [], [])
    ∧ (∀ (fs : List String) (n : Nat) (branch : String),
        fs.contains (getWorktreePath projectPath worktreeDir n) = true →
        createWorktree genv projectPath worktreeDir fs n branch
          = .ok (getWorktreePath projectPath worktreeDir n, fs, [])) := by
  constructor
  · unfold startTask
    simp [hdup]
  · intro fs n branch hmem
    unfold createWorktree
    simp [hmem]
    intro hno
    exact absurd (by simpa using hmem) hno

theorem startTask_idempotent_worktree_reuse_witness :
    startTask genvC5 oenvC5 "/p" ".worktrees" 100 [(1, ctxA)]
        ["/p/.worktrees/issue-1"] issueHigh
      = .ok (ctxA, [(1, ctxA)], ["/p/.worktrees/issue-1"], [], [])
    ∧ createWorktree genvC5 "/p" ".worktrees" ["/p/.worktrees/issue-1"] 1 "b"
      = .ok (getWorktreePath "/p" ".worktrees" 1, ["/p/.worktrees/issue-1"], []) :=
  ⟨(startTask_idempotent_worktree_reuse genvC5 oenvC5 "/p" ".worktrees" 100
      [(1, ctxA)] ["/p/.worktrees/issue-1"] issueHigh ctxA (by rfl)).1,
   (startTask_idempotent_worktree_reuse genvC5 oenvC5 "/p" ".worktrees" 100
      [(1, ctxA)] ["/p/.worktrees/issue-1"] issueHigh ctxA (by rfl)).2
     ["/p/.worktrees/issue-1"] 1 "b" (by decide)⟩

/-! ## C10: continuation bails out with no effect -/

/-- C10: when the issue has no comment from an author other than the
configured username, or no current branch resolves for its worktree,
`continueBlockedTask` returns `null`, the active map is unchanged, and no
session is created or resumed. -/
theorem continueBlockedTask_null_no_effect
    (oenv : OCEnv) (username : String) (branchOf : Nat → Option String)
    (projectPath worktreeDir : String) (now : Nat)
    (activeTasks : List (Nat × TaskContext)) (issue : Issue)
    (h : getLatestHumanComment username issue = none
        ∨ branchOf issue.number = none) :
    continueBlockedTask oenv username branchOf projectPath worktreeDir now
        activeTasks issue
      = .ok (none, activeTasks, []) := by
  unfold continueBlockedTask
  rcases h with h | h
  · simp [h]
  · cases hc : getLatestHumanComment username issue with
    | none => simp
    | some c => simp [h]

theorem continueBlockedTask_null_no_effect_witness :
    continueBlockedTask oenvC5 "botuser" (fun _ => some "b") "/p" ".worktrees" 50
        [] issueBlockedBotOnly
      = .ok (none, [], []) :=
  continueBlockedTask_null_no_effect oenvC5 "botuser" (fun _ => some "b") "/p"
    ".worktrees" 50 [] issueBlockedBotOnly (Or.inl (by decide))
